import Mathlib

/-!
Shallow embedding of the git-submodule workflow CLI
(`src/scripts/git-submodules-js`): the per-repository sync logic
(`syncSubmodule`/`syncSubmodules`), the feature-branch command
(`createFeatureBranch`), the parent-repository aggregation step, and the
git/gh helper functions from `src/utils/git.js`.

Repository state is modelled by the fields the helpers observe; the
fallible adapter calls (fetch, pull, checkout, branch creation, stash) take
their success or failure from an explicit environment mirroring the
`try`/`catch` sites of the commands.  Each command returns its boolean
result together with the trace of mutating git operations it performed,
the warning/log lines it printed, and the resulting repository state.
-/

namespace GitSubmodules

/-- JavaScript `String.prototype.replace` with a string pattern replaces only
the first occurrence.  The code always replaces with the empty string, so
this helper deletes the first occurrence of `p`, on character lists. -/
def replaceFirstL (p : List Char) : List Char → List Char
  | [] => []
  | c :: rest =>
    if p.isPrefixOf (c :: rest) then (c :: rest).drop p.length
    else c :: replaceFirstL p rest

/-- `s.replace(pat, '')` as the JavaScript helpers use it. -/
def jsReplaceOnce (s pat : String) : String :=
  ⟨replaceFirstL pat.data s.data⟩

/-- JavaScript `String.prototype.trim`: strip whitespace from both ends. -/
def jsTrim (s : String) : String :=
  ⟨((s.data.dropWhile Char.isWhitespace).reverse.dropWhile Char.isWhitespace).reverse⟩

/-- Observable state of one working directory, holding exactly what the
`git.js` helpers query: path existence, repository validity, cleanliness,
the current branch (`status.current || null`), the raw output of
`git symbolic-ref refs/remotes/origin/HEAD` (`none` when that command
fails), the branch lists, and the stash messages (newest first). -/
structure RepoState where
  pathExists : Bool
  isRepo : Bool
  dirty : Bool
  currentBranch : Option String
  originHeadRaw : Option String
  branchesAll : List String
  localBranches : List String
  remoteBranchesRaw : List String
  stashes : List String
  deriving Repr, DecidableEq

/-- `gitHelpers.getDefaultBranch` (src/unnamed/part_002 lines 41-53): prefer
the remote symbolic default (trimmed, with the first occurrence of
`refs/remotes/origin/` removed); when that query fails, fall back to
`main` if `origin/main` is listed, then `master` if `origin/master` is
listed, then `main` unconditionally. -/
def getDefaultBranch (st : RepoState) : String :=
  match st.originHeadRaw with
  | some raw => jsReplaceOnce (jsTrim raw) "refs/remotes/origin/"
  | none =>
    if st.branchesAll.contains "origin/main" then "main"
    else if st.branchesAll.contains "origin/master" then "master"
    else "main"

/-- `gitHelpers.getRemoteBranches` (part_002 lines 145-149): the `-r` branch
list with the first occurrence of `origin/` removed from each name. -/
def getRemoteBranches (st : RepoState) : List String :=
  st.remoteBranchesRaw.map (fun b => jsReplaceOnce b "origin/")

/-- `gitHelpers.branchExists` (part_002 lines 159-162). -/
def branchExists (st : RepoState) (name : String) : Bool :=
  st.localBranches.contains name

/-- `gitHelpers.remoteBranchExists` (part_002 lines 165-168). -/
def remoteBranchExists (st : RepoState) (name : String) : Bool :=
  (getRemoteBranches st).contains name

/-- Mutating repository operations issued by the commands, in program order.
Pure reads (status, branch listings) are modelled as lookups on
`RepoState` and are not recorded. -/
inductive GitOp where
  | fetch (remote : String)
  | pull (remote branch : String)
  | checkout (branch : String)
  | checkoutTrack (branch upstream : String)
  | createBranch (name : String)
  | stashPush (msg : String)
  deriving Repr, DecidableEq

/-- Effect of one successful mutating operation on the observed state.
Fetch and pull leave every observed field unchanged (a pull on a clean
tree keeps it clean); checkout moves `currentBranch`; branch creation and
tracking checkout additionally register the new local branch; a stash
push clears the dirty flag and records its message. -/
def applyOp (st : RepoState) : GitOp → RepoState
  | .fetch _ => st
  | .pull _ _ => st
  | .checkout b => { st with currentBranch := some b }
  | .checkoutTrack b _ =>
      { st with currentBranch := some b, localBranches := b :: st.localBranches }
  | .createBranch b =>
      { st with currentBranch := some b, localBranches := b :: st.localBranches }
  | .stashPush m => { st with dirty := false, stashes := m :: st.stashes }

/-- Apply a trace of operations in order. -/
def applyOps (st : RepoState) (ops : List GitOp) : RepoState :=
  ops.foldl applyOp st

/-- Outcome of the fallible adapter calls: which fetch, per-branch pull,
per-branch checkout, tracking checkout, branch creation and stash
invocations succeed.  These are the `try`/`catch` sites of the commands. -/
structure Env where
  fetchOk : Bool
  pullOk : String → Bool
  checkoutOk : String → Bool
  checkoutTrackOk : Bool
  createBranchOk : Bool
  stashOk : Bool

/-- Result of running one command: its boolean return value, the trace of
mutating operations, the warning/log lines, and the final state. -/
structure RunResult where
  success : Bool
  ops : List GitOp
  logs : List String
  final : RepoState
  deriving Repr, DecidableEq

/-- The stash message built at new-feature.js sync section line 253:
`Auto-stash before sync ${new Date().toISOString()}`. -/
def stashMessage (ts : String) : String :=
  "Auto-stash before sync " ++ ts

/-- Dirty-tree handling of `syncSubmodule` (sync section lines 242-260):
skip without force, otherwise stash with a timestamped message.  Returns
either the early-exit result or the state, operations and logs to carry
forward. -/
def syncDirtyStep (env : Env) (ts name : String) (st : RepoState)
    (forceUpdate : Bool) :
    Except RunResult (RepoState × List GitOp × List String) :=
  if st.dirty then
    let warn := "Uncommitted changes detected in " ++ name
    if !forceUpdate then
      .error ⟨false, [],
        [warn, "Use --force to sync anyway, or commit your changes first",
         "Skipping " ++ name ++ "..."], st⟩
    else if env.stashOk then
      .ok (applyOp st (.stashPush (stashMessage ts)),
           [.stashPush (stashMessage ts)], [warn, "Changes stashed"])
    else
      .error ⟨false, [], [warn, "Failed to stash changes"], st⟩
  else
    .ok (st, [], [])

/-- Detached-HEAD regime of `syncSubmodule` (sync section lines 286-298):
resolve the default branch, check it out, pull it; both steps sit in one
`try`, so a failed pull still leaves the checkout performed. -/
def syncDetached (env : Env) (st : RepoState) : Bool × List GitOp × List String :=
  let d := getDefaultBranch st
  if env.checkoutOk d then
    if env.pullOk d then
      (true, [.checkout d, .pull "origin" d], ["Checked out and pulled " ++ d])
    else (false, [.checkout d], ["Failed to checkout " ++ d])
  else (false, [], ["Failed to checkout " ++ d])

/-- Branch regime dispatch of `syncSubmodule` (sync section lines 277-298):
on a named branch pull that same branch from origin, otherwise the
detached-HEAD path. -/
def syncBranchStep (env : Env) (st : RepoState) : Bool × List GitOp × List String :=
  match st.currentBranch with
  | some b =>
    if b = "HEAD" then syncDetached env st
    else if env.pullOk b then
      (true, [.pull "origin" b], ["Pulled latest from " ++ b])
    else (false, [], ["Failed to pull from " ++ b])
  | none => syncDetached env st

/-- `syncSubmodule` (new-feature.js sync section lines 232-302): check the
directory, handle a dirty tree (skip or stash), fetch, then pull in the
attached or detached regime.  `ts` is the ISO timestamp observed at the
stash site. -/
def syncSubmodule (env : Env) (ts name : String) (st : RepoState)
    (forceUpdate : Bool) : RunResult :=
  if !st.pathExists then
    ⟨false, [], ["Submodule directory not found"], st⟩
  else
    match syncDirtyStep env ts name st forceUpdate with
    | .error r => r
    | .ok (st1, ops1, logs1) =>
      if !env.fetchOk then
        ⟨false, ops1, logs1 ++ ["Failed to fetch changes"], st1⟩
      else
        let (ok, ops3, logs3) := syncBranchStep env st1
        ⟨ok, ops1 ++ [.fetch "origin"] ++ ops3,
         logs1 ++ ["Fetched latest changes"] ++ logs3 ++
           (if ok then ["Successfully synced " ++ name] else []),
         applyOps st1 ([GitOp.fetch "origin"] ++ ops3)⟩

/-- One entry of the `results` array built by the sync loop
(sync section line 355): submodule name and boolean success. -/
structure SyncEntry where
  name : String
  success : Bool
  deriving Repr, DecidableEq

/-- One registered submodule together with the environment and state its
reconciliation runs against. -/
structure SyncSpec where
  name : String
  ts : String
  env : Env
  state : RepoState

/-- The per-submodule loop of `syncSubmodules` (sync section lines 352-356):
each iteration runs `syncSubmodule` and pushes one result entry; the loop
body never breaks out of the iteration. -/
def syncSubmodulesLoop (forceUpdate : Bool) : List SyncSpec → List SyncEntry
  | [] => []
  | s :: rest =>
    { name := s.name,
      success := (syncSubmodule s.env s.ts s.name s.state forceUpdate).success }
      :: syncSubmodulesLoop forceUpdate rest

/-- One summary line of `syncSubmodules` (sync section lines 400-406):
`✓ name` on success, `✗ name (failed)` otherwise — also for a repository
that was merely skipped. -/
def summaryLine (e : SyncEntry) : String :=
  if e.success then "✓ " ++ e.name else "✗ " ++ e.name ++ " (failed)"

/-- The summary block printed after the loop (sync section lines 399-406). -/
def summary (es : List SyncEntry) : List String :=
  es.map summaryLine

/-- One submodule as `git submodule status` reports it: current pinned
revision, path, the ref description git appends, and whether the revision
recorded in the parent differs from the submodule HEAD (the `+` prefix). -/
structure SubEntry where
  name : String
  rev : String
  refDescr : String
  changed : Bool
  deriving Repr, DecidableEq

/-- Observed state of the parent repository: paths with unstaged changes
(submodule pointer entries and ordinary files alike), staged paths, the
registered submodules, and the commit messages created (newest first). -/
structure ParentState where
  unstagedPaths : List String
  stagedPaths : List String
  submodules : List SubEntry
  commits : List String
  deriving Repr, DecidableEq

/-- `gitHelpers.getSubmoduleStatus` (part_002 lines 222-225): the raw
`git submodule status` lines, one per registered submodule — changed or
not — showing only the current revision. -/
def getSubmoduleStatus (p : ParentState) : List String :=
  p.submodules.map (fun e =>
    (if e.changed then "+" else " ") ++ e.rev ++ " " ++ e.name ++ " " ++ e.refDescr)

/-- The parent-repository update phase of `syncSubmodules` (sync section
lines 361-389): `git add .` stages every pending change, then — when the
tree is not clean and the operator confirms — commits with a message made
of a fixed header plus the full `git submodule status` output.  Returns
the new parent state and the log lines. -/
def updateParentRepo (commitConfirm : Bool) (p : ParentState) :
    ParentState × List String :=
  let staged := p.stagedPaths ++ p.unstagedPaths
  let p1 := { p with stagedPaths := staged, unstagedPaths := ([] : List String) }
  if staged.isEmpty then
    (p1, ["No submodule reference updates needed"])
  else if commitConfirm then
    let msg := "chore: update submodule references to latest commits\n\n" ++
      String.intercalate "\n" (getSubmoduleStatus p1)
    ({ p1 with commits := msg :: p1.commits, stagedPaths := ([] : List String) },
     ["Committed submodule updates to parent repo"])
  else
    (p1, ["Submodule updates staged but not committed"])

/-- Branch-existence decision of `createFeatureBranch` (new-feature.js lines
123-171), run after the default branch is up to date: an existing local
branch needs explicit confirmation (declining changes nothing); a branch
existing only on the remote is checked out tracking `origin/<branch>`;
otherwise a fresh local branch is created. -/
def featureBranchStep (env : Env) (switchConfirm : Bool)
    (featureBranch : String) (st : RepoState) : Bool × List GitOp × List String :=
  if branchExists st featureBranch then
    if switchConfirm then
      if env.checkoutOk featureBranch then
        (true, [.checkout featureBranch],
         ["Feature branch '" ++ featureBranch ++ "' already exists locally",
          "Switched to existing branch: " ++ featureBranch])
      else
        (false, [],
         ["Feature branch '" ++ featureBranch ++ "' already exists locally",
          "Failed to switch to " ++ featureBranch])
    else
      (false, [],
       ["Feature branch '" ++ featureBranch ++ "' already exists locally",
        "Staying on current branch"])
  else if remoteBranchExists st featureBranch then
    if env.checkoutTrackOk then
      (true, [.checkoutTrack featureBranch ("origin/" ++ featureBranch)],
       ["Feature branch '" ++ featureBranch ++ "' exists on remote",
        "Checked out remote branch: " ++ featureBranch])
    else
      (false, [],
       ["Feature branch '" ++ featureBranch ++ "' exists on remote",
        "Failed to checkout remote branch"])
  else
    if env.createBranchOk then
      (true, [.createBranch featureBranch],
       ["Created and switched to: " ++ featureBranch])
    else (false, [], ["Failed to create feature branch"])

/-- Tail of `createFeatureBranch` after fetch and the switch to the default
branch (lines 109-188): pull the default branch, then apply the
branch-existence decision.  `ops1` is the trace accumulated so far and
`st1` the state it produced. -/
def featurePullStep (env : Env) (switchConfirm : Bool)
    (defaultBranch featureBranch : String) (st1 : RepoState)
    (ops1 : List GitOp) : RunResult :=
  if env.pullOk defaultBranch then
    let fbs := featureBranchStep env switchConfirm featureBranch st1
    ⟨fbs.1, ops1 ++ [GitOp.pull "origin" defaultBranch] ++ fbs.2.1, fbs.2.2,
     applyOps st1 ([GitOp.pull "origin" defaultBranch] ++ fbs.2.1)⟩
  else ⟨false, ops1, ["Failed to pull latest changes"], st1⟩

/-- `createFeatureBranch` (new-feature.js lines 29-189): validate the
service path and repository, stop on a dirty tree, fetch, move to the
up-to-date default branch, then create or resume `feature/<name>`.
`switchConfirm` is the answer to the "Do you want to switch to it?"
prompt, consulted only when the branch already exists locally. -/
def createFeatureBranch (env : Env) (switchConfirm : Bool)
    (serviceName featureName : String) (st : RepoState) : RunResult :=
  if !st.pathExists then
    ⟨false, [], ["Service '" ++ serviceName ++ "' not found"], st⟩
  else if !st.isRepo then
    ⟨false, [], ["'" ++ serviceName ++ "' is not a git repository"], st⟩
  else if st.dirty then
    ⟨false, [],
     ["Uncommitted changes detected",
      "Please commit or stash your changes first"], st⟩
  else
    let defaultBranch := getDefaultBranch st
    let featureBranch := "feature/" ++ featureName
    if !env.fetchOk then
      ⟨false, [], ["Failed to fetch changes"], st⟩
    else if st.currentBranch = some defaultBranch then
      featurePullStep env switchConfirm defaultBranch featureBranch st
        [GitOp.fetch "origin"]
    else if env.checkoutOk defaultBranch then
      featurePullStep env switchConfirm defaultBranch featureBranch
        (applyOp st (.checkout defaultBranch))
        [GitOp.fetch "origin", GitOp.checkout defaultBranch]
    else
      ⟨false, [GitOp.fetch "origin"],
       ["Failed to switch to " ++ defaultBranch], st⟩

/-- A pull request as the gh helpers observe it: number, url, head branch. -/
structure PullRequest where
  number : Nat
  url : String
  head : String
  deriving Repr, DecidableEq

/-- The hosting platform's observable state: the open pull requests in
listing order, and the number the next created PR receives. -/
structure HostState where
  openPRs : List PullRequest
  nextNumber : Nat
  deriving Repr, DecidableEq

/-- `githubHelpers.getPRForBranch` (part_002 lines 283-299):
`gh pr list --head <branch> --jq .[0]` — the first open PR whose head is
the branch, or none. -/
def getPRForBranch (host : HostState) (branch : String) : Option PullRequest :=
  (host.openPRs.filter (fun p => p.head = branch)).head?

/-- `githubHelpers.createPR` (part_002 lines 262-280) at the platform level:
`gh pr create` registers a new open PR whose head is the current branch
and reports its number and url. -/
def createPR (host : HostState) (head : String) : PullRequest × HostState :=
  let p : PullRequest :=
    ⟨host.nextNumber, "pr-url-" ++ toString host.nextNumber, head⟩
  (p, { openPRs := host.openPRs ++ [p], nextNumber := host.nextNumber + 1 })

/-- Modelled from the spec: the link-PR command (`createLinkPR`) is missing
from src/ — only its adapters (`getPRForBranch`, `createPR`), the CLI
registration and the workflow docs are present.  Spec §4.3: push the
branch, "Query the Hosting Adapter for an existing open PR with this
branch as head; if found, return it unchanged (idempotent — re-running
must not create duplicate PRs)"; otherwise request creation. -/
def createLinkPR (host : HostState) (branch : String) : PullRequest × HostState :=
  match getPRForBranch host branch with
  | some p => (p, host)
  | none => createPR host branch

/-- Substring occurrence test on character lists, used to state what a
commit message does or does not mention. -/
def containsSub (needle : List Char) : List Char → Bool
  | [] => needle.isEmpty
  | c :: rest => needle.isPrefixOf (c :: rest) || containsSub needle rest

/-- `mentions msg piece` holds when `piece` occurs verbatim in `msg`. -/
def mentions (msg piece : String) : Bool :=
  containsSub piece.data msg.data

/-! Concrete sample environments and states used by witnesses and
counterexamples. -/

/-- Environment in which every adapter call succeeds. -/
def envAll : Env := ⟨true, fun _ => true, fun _ => true, true, true, true⟩

/-- Environment in which the fetch fails and everything else succeeds. -/
def envNoFetch : Env := ⟨false, fun _ => true, fun _ => true, true, true, true⟩

/-- A valid repository on `main` with uncommitted changes. -/
def dirtySt : RepoState :=
  ⟨true, true, true, some "main", none, ["main", "origin/main"], ["main"],
   ["origin/main"], []⟩

/-- A clean, valid repository on `main`. -/
def cleanSt : RepoState :=
  ⟨true, true, false, some "main", none, ["main", "origin/main"], ["main"],
   ["origin/main"], []⟩

/-- A clean repository pinned at a revision (detached HEAD), whose remote
symbolic default resolves to `main`. -/
def detachedSt : RepoState :=
  ⟨true, true, false, none, some "refs/remotes/origin/main\n",
   ["main", "origin/main"], ["main"], ["origin/main"], []⟩

/-- A clean detached repository whose symbolic-default query fails but whose
branch list carries `origin/main`. -/
def fallbackSt : RepoState :=
  ⟨true, true, false, none, none, ["main", "origin/main"], ["main"],
   ["origin/main"], []⟩

/-- A clean repository where `feature/login` exists only on the remote. -/
def remoteFeatureSt : RepoState :=
  ⟨true, true, false, some "main", none, ["main", "origin/main"], ["main"],
   ["origin/main", "origin/feature/login"], []⟩

/-- Parent repository for the aggregation counterexample: submodule
`services/serviceA` is unchanged at `aaa111`; `services/serviceB` advanced
from `bbb111` to `bbb222`; the working tree also carries an unrelated
change to `README.md`. -/
def parentCx : ParentState :=
  ⟨["services/serviceB", "README.md"], [],
   [⟨"services/serviceA", "aaa111", "(heads/main)", false⟩,
    ⟨"services/serviceB", "bbb222", "(heads/main)", true⟩],
   []⟩

/-- The commit message `updateParentRepo` produces on `parentCx`. -/
def parentCxMsg : String :=
  "chore: update submodule references to latest commits\n\n" ++
  " aaa111 services/serviceA (heads/main)\n" ++
  "+bbb222 services/serviceB (heads/main)"

/-- A hosting state with one open PR whose head is `feature/login`. -/
def hostWithPR : HostState :=
  ⟨[⟨7, "pr-url-7", "feature/login"⟩], 8⟩

/-- Two registered submodules for the loop witness: the first dirty (the
skip case), the second clean but with a failing fetch (the failure case). -/
def specsCx : List SyncSpec :=
  [⟨"repoA", "T0", envAll, dirtySt⟩, ⟨"repoB", "T0", envNoFetch, cleanSt⟩]

/-! ## Helper lemmas -/

theorem data_append (a b : String) : (a ++ b).data = a.data ++ b.data :=
  String.data_append a b

theorem string_append_left_cancel {a b c : String} (h : a ++ b = a ++ c) :
    b = c := by
  have hd := congrArg String.data h
  rw [data_append, data_append] at hd
  have hbc := List.append_cancel_left hd
  cases b; cases c
  exact congrArg String.mk hbc

theorem replaceFirstL_append_self (p l : List Char) (hp : p ≠ []) :
    replaceFirstL p (p ++ l) = l := by
  cases p with
  | nil => exact absurd rfl hp
  | cons c cs =>
    show replaceFirstL (c :: cs) (c :: (cs ++ l)) = l
    have hpre : (c :: cs).isPrefixOf (c :: (cs ++ l)) = true := by
      rw [List.isPrefixOf_iff_prefix, ← List.cons_append]
      exact List.prefix_append _ _
    unfold replaceFirstL
    rw [if_pos hpre]
    have hdrop := List.drop_left (c :: cs) l
    simp only [List.cons_append] at hdrop
    exact hdrop

theorem jsReplaceOnce_append (pat b : String) (hp : pat.data ≠ []) :
    jsReplaceOnce (pat ++ b) pat = b := by
  unfold jsReplaceOnce
  rw [data_append, replaceFirstL_append_self pat.data b.data hp]

/-! ## Claim theorems -/

/-- C1: a dirty working tree without `forceStash` makes `syncSubmodule`
return the skip outcome (result `false`, the uncommitted-changes warning
and the skip message logged) while performing no mutating repository
operation, leaving the repository state — uncommitted changes included —
exactly as it was. -/
theorem sync_dirty_noforce_skips (env : Env) (ts name : String)
    (st : RepoState) (hP : st.pathExists = true) (hD : st.dirty = true) :
    (syncSubmodule env ts name st false).success = false ∧
    (syncSubmodule env ts name st false).ops = [] ∧
    (syncSubmodule env ts name st false).final = st ∧
    ("Uncommitted changes detected in " ++ name)
      ∈ (syncSubmodule env ts name st false).logs ∧
    ("Skipping " ++ name ++ "...") ∈ (syncSubmodule env ts name st false).logs := by
  simp [syncSubmodule, syncDirtyStep, hP, hD]

/-- Witness for C1 at a concrete dirty repository. -/
theorem sync_dirty_noforce_skips_witness :
    (syncSubmodule envAll "T0" "repoA" dirtySt false).success = false ∧
    (syncSubmodule envAll "T0" "repoA" dirtySt false).ops = [] ∧
    (syncSubmodule envAll "T0" "repoA" dirtySt false).final = dirtySt ∧
    ("Uncommitted changes detected in " ++ "repoA")
      ∈ (syncSubmodule envAll "T0" "repoA" dirtySt false).logs ∧
    ("Skipping " ++ "repoA" ++ "...")
      ∈ (syncSubmodule envAll "T0" "repoA" dirtySt false).logs :=
  sync_dirty_noforce_skips envAll "T0" "repoA" dirtySt rfl rfl

/-- C7: `createFeatureBranch` on a dirty working tree fails before issuing
any git operation at all — no fetch, checkout, pull, branch creation or
stash — and leaves the repository state untouched. -/
theorem feature_dirty_stops (env : Env) (confirm : Bool)
    (serviceName featureName : String) (st : RepoState)
    (hP : st.pathExists = true) (hR : st.isRepo = true)
    (hD : st.dirty = true) :
    (createFeatureBranch env confirm serviceName featureName st).success = false ∧
    (createFeatureBranch env confirm serviceName featureName st).ops = [] ∧
    (createFeatureBranch env confirm serviceName featureName st).final = st ∧
    "Please commit or stash your changes first"
      ∈ (createFeatureBranch env confirm serviceName featureName st).logs := by
  simp [createFeatureBranch, hP, hR, hD]

/-- Witness for C7 at a concrete dirty repository. -/
theorem feature_dirty_stops_witness :
    (createFeatureBranch envAll true "svc" "login" dirtySt).success = false ∧
    (createFeatureBranch envAll true "svc" "login" dirtySt).ops = [] ∧
    (createFeatureBranch envAll true "svc" "login" dirtySt).final = dirtySt ∧
    "Please commit or stash your changes first"
      ∈ (createFeatureBranch envAll true "svc" "login" dirtySt).logs :=
  feature_dirty_stops envAll true "svc" "login" dirtySt rfl rfl rfl

theorem featureBranchStep_true_current (env : Env) (confirm : Bool)
    (fb : String) (st1 : RepoState)
    (h : (featureBranchStep env confirm fb st1).1 = true) :
    (applyOps st1 (featureBranchStep env confirm fb st1).2.1).currentBranch
      = some fb := by
  unfold featureBranchStep at h ⊢
  split_ifs at h ⊢ <;> simp_all [applyOps, applyOp]

theorem featurePullStep_success_current (env : Env) (confirm : Bool)
    (d fb : String) (st1 : RepoState) (ops1 : List GitOp)
    (h : (featurePullStep env confirm d fb st1 ops1).success = true) :
    (featurePullStep env confirm d fb st1 ops1).final.currentBranch = some fb := by
  unfold featurePullStep at h ⊢
  split_ifs at h ⊢ with hpull
  dsimp only at h ⊢
  have hcur := featureBranchStep_true_current env confirm fb st1 h
  simpa [applyOps, applyOp] using hcur

/-- C8: whenever `createFeatureBranch` succeeds, the repository ends up
checked out on exactly `feature/<featureName>` — no collision-avoidance
suffixing, independent of the starting branch or repository name. -/
theorem feature_success_branch_name (env : Env) (confirm : Bool)
    (serviceName featureName : String) (st : RepoState)
    (h : (createFeatureBranch env confirm serviceName featureName st).success = true) :
    (createFeatureBranch env confirm serviceName featureName st).final.currentBranch
      = some ("feature/" ++ featureName) := by
  simp only [createFeatureBranch] at h ⊢
  split_ifs at h ⊢
  all_goals exact featurePullStep_success_current _ _ _ _ _ _ h

/-- Witness for C8: a concrete clean repository on `main` where the branch
is fresh; the run succeeds and lands on `feature/login`. -/
theorem feature_success_branch_name_witness :
    (createFeatureBranch envAll true "svc" "login" cleanSt).success = true ∧
    (createFeatureBranch envAll true "svc" "login" cleanSt).final.currentBranch
      = some ("feature/" ++ "login") :=
  ⟨by decide, feature_success_branch_name envAll true "svc" "login" cleanSt (by decide)⟩

/-- C9: the link-PR operation is idempotent — running it a second time on
the same unmodified branch returns the same pull-request identity and
leaves the set of open PRs unchanged, and an already-existing open PR
with that head is returned unchanged. -/
theorem link_pr_idempotent (host : HostState) (branch : String) :
    (createLinkPR (createLinkPR host branch).2 branch).1
      = (createLinkPR host branch).1 ∧
    (createLinkPR (createLinkPR host branch).2 branch).2
      = (createLinkPR host branch).2 ∧
    (∀ p, getPRForBranch host branch = some p →
      createLinkPR host branch = (p, host)) := by
  rcases h : getPRForBranch host branch with _ | p
  · have hempty : host.openPRs.filter (fun q => q.head = branch) = [] := by
      unfold getPRForBranch at h
      exact List.head?_eq_none_iff.mp h
    have h2 : getPRForBranch
        { openPRs := host.openPRs ++
            [⟨host.nextNumber, "pr-url-" ++ toString host.nextNumber, branch⟩],
          nextNumber := host.nextNumber + 1 } branch
        = some ⟨host.nextNumber, "pr-url-" ++ toString host.nextNumber, branch⟩ := by
      unfold getPRForBranch
      simp [List.filter_append, hempty]
    refine ⟨?_, ?_, ?_⟩
    · simp [createLinkPR, h, createPR, h2]
    · simp [createLinkPR, h, createPR, h2]
    · intro p hp; cases hp
  · refine ⟨?_, ?_, ?_⟩
    · simp [createLinkPR, h, createPR]
    · simp [createLinkPR, h, createPR]
    · intro q hq; injection hq with he
      simp [createLinkPR, h, he]

/-- Witness for C9: a host that already has an open PR for
`feature/login`; both calls return that PR and create nothing. -/
theorem link_pr_idempotent_witness :
    getPRForBranch hostWithPR "feature/login"
      = some ⟨7, "pr-url-7", "feature/login"⟩ ∧
    createLinkPR hostWithPR "feature/login"
      = (⟨7, "pr-url-7", "feature/login"⟩, hostWithPR) :=
  ⟨by decide,
   (link_pr_idempotent hostWithPR "feature/login").2.2
     ⟨7, "pr-url-7", "feature/login"⟩ (by decide)⟩

/-- C10: `getDefaultBranch` is a total function of the observed repository
state and returns a non-empty name: the remote's symbolic default when
that query succeeds (and is well-formed), otherwise `main` if
`origin/main` is listed, otherwise `master` if `origin/master` is listed,
otherwise `main` even when no such branch exists anywhere. -/
theorem default_branch_total (st : RepoState)
    (h : ∀ raw, st.originHeadRaw = some raw →
      ∃ b : String, jsTrim raw = "refs/remotes/origin/" ++ b ∧ b ≠ "") :
    getDefaultBranch st ≠ "" ∧
    (∀ raw b, st.originHeadRaw = some raw →
      jsTrim raw = "refs/remotes/origin/" ++ b → getDefaultBranch st = b) ∧
    (st.originHeadRaw = none →
      getDefaultBranch st =
        if st.branchesAll.contains "origin/main" then "main"
        else if st.branchesAll.contains "origin/master" then "master"
        else "main") := by
  rcases hr : st.originHeadRaw with _ | raw
  · refine ⟨?_, ?_, ?_⟩
    · simp only [getDefaultBranch, hr]
      split_ifs <;> decide
    · intro raw b hc; cases hc
    · intro _; simp only [getDefaultBranch, hr]
  · obtain ⟨b, hb, hbne⟩ := h raw hr
    have hcalc : getDefaultBranch st = b := by
      simp only [getDefaultBranch, hr, hb]
      exact jsReplaceOnce_append _ _ (by decide)
    refine ⟨by rw [hcalc]; exact hbne, ?_, ?_⟩
    · intro raw' b' hr' hb'
      injection hr' with he; subst he
      rw [hb] at hb'
      rw [hcalc]
      exact string_append_left_cancel hb'
    · intro hnone; cases hnone

/-- Witness for C10 at a repository whose symbolic default is
`refs/remotes/origin/main` (with a trailing newline, as git prints it). -/
theorem default_branch_total_witness :
    (∀ raw, detachedSt.originHeadRaw = some raw →
      ∃ b : String, jsTrim raw = "refs/remotes/origin/" ++ b ∧ b ≠ "") ∧
    getDefaultBranch detachedSt ≠ "" ∧ getDefaultBranch detachedSt = "main" := by
  have hh : ∀ raw, detachedSt.originHeadRaw = some raw →
      ∃ b : String, jsTrim raw = "refs/remotes/origin/" ++ b ∧ b ≠ "" := by
    intro raw hr
    have hsome : some "refs/remotes/origin/main\n" = some raw := hr
    injection hsome with he
    exact ⟨"main", by rw [← he]; decide, by decide⟩
  have ht := default_branch_total detachedSt hh
  exact ⟨hh, ht.1,
    ht.2.1 "refs/remotes/origin/main\n" "main" rfl (by decide)⟩

/-- C4: past the dirty-tree check, a clean repository on a named branch is
fetched and then pulled from `origin` on that same branch; a detached
repository has the default branch resolved, checked out and pulled; and
when the symbolic-default query fails the resolution falls back to `main`,
then `master`, then `main`. -/
theorem sync_clean_regimes (env : Env) (ts name : String) (st : RepoState)
    (hP : st.pathExists = true) (hC : st.dirty = false)
    (hF : env.fetchOk = true) :
    (∀ b, st.currentBranch = some b → b ≠ "HEAD" → env.pullOk b = true →
      (syncSubmodule env ts name st false).ops
        = [.fetch "origin", .pull "origin" b] ∧
      (syncSubmodule env ts name st false).success = true) ∧
    ((st.currentBranch = none ∨ st.currentBranch = some "HEAD") →
      env.checkoutOk (getDefaultBranch st) = true →
      env.pullOk (getDefaultBranch st) = true →
      (syncSubmodule env ts name st false).ops
        = [.fetch "origin", .checkout (getDefaultBranch st),
           .pull "origin" (getDefaultBranch st)] ∧
      (syncSubmodule env ts name st false).success = true ∧
      (syncSubmodule env ts name st false).final.currentBranch
        = some (getDefaultBranch st)) ∧
    (∀ raw, st.originHeadRaw = some raw →
      getDefaultBranch st = jsReplaceOnce (jsTrim raw) "refs/remotes/origin/") ∧
    (st.originHeadRaw = none →
      getDefaultBranch st =
        if st.branchesAll.contains "origin/main" then "main"
        else if st.branchesAll.contains "origin/master" then "master"
        else "main") := by
  refine ⟨?_, ?_, ?_, ?_⟩
  · intro b hb hbH hpb
    constructor <;>
      simp [syncSubmodule, syncDirtyStep, syncBranchStep, hP, hC, hF, hb,
        hbH, hpb]
  · intro hdet hco hpo
    rcases hdet with hcb | hcb <;>
      refine ⟨?_, ?_, ?_⟩ <;>
        simp [syncSubmodule, syncDirtyStep, syncBranchStep, syncDetached,
          hP, hC, hF, hcb, hco, hpo, applyOps, applyOp]
  · intro raw hraw
    simp only [getDefaultBranch, hraw]
  · intro hnone
    simp only [getDefaultBranch, hnone]

/-- Witness for C4 at a concrete detached repository whose symbolic-default
query fails and whose branch list carries `origin/main`. -/
theorem sync_clean_regimes_witness :
    (syncSubmodule envAll "T0" "repoA" fallbackSt false).ops
      = [.fetch "origin", .checkout "main", .pull "origin" "main"] ∧
    (syncSubmodule envAll "T0" "repoA" fallbackSt false).success = true := by
  have h := sync_clean_regimes envAll "T0" "repoA" fallbackSt rfl rfl rfl
  have hm : getDefaultBranch fallbackSt = "main" := by decide
  have hd := h.2.1 (Or.inl rfl) (by rw [hm]; rfl) (by rw [hm]; rfl)
  rw [hm] at hd
  exact ⟨hd.1, hd.2.1⟩

theorem syncBranchStep_preserves (env : Env) (st1 : RepoState) :
    (applyOps st1 ([GitOp.fetch "origin"] ++ (syncBranchStep env st1).2.1)).dirty
      = st1.dirty ∧
    (applyOps st1 ([GitOp.fetch "origin"] ++ (syncBranchStep env st1).2.1)).stashes
      = st1.stashes := by
  unfold syncBranchStep syncDetached
  rcases hcb : st1.currentBranch with _ | b <;>
    simp only [hcb] <;> split_ifs <;> simp [applyOps, applyOp]

/-- C5: with `forceStash`, a dirty repository is first stashed with the
timestamped message `Auto-stash before sync <ts>` — the very first
mutating operation — the message determines the timestamp uniquely, the
entry is still in the stash list at the end, reconciliation continues,
and a successful run ends with a clean working tree. -/
theorem sync_force_stashes (env : Env) (ts name : String) (st : RepoState)
    (hP : st.pathExists = true) (hD : st.dirty = true)
    (hS : env.stashOk = true) :
    (syncSubmodule env ts name st true).ops.head?
      = some (.stashPush (stashMessage ts)) ∧
    stashMessage ts ∈ (syncSubmodule env ts name st true).final.stashes ∧
    (syncSubmodule env ts name st true).final.dirty = false ∧
    (env.fetchOk = true → GitOp.fetch "origin" ∈ (syncSubmodule env ts name st true).ops) ∧
    (∀ t1 t2 : String, stashMessage t1 = stashMessage t2 → t1 = t2) := by
  have hinj : ∀ t1 t2 : String, stashMessage t1 = stashMessage t2 → t1 = t2 := by
    intro t1 t2 hmsg
    unfold stashMessage at hmsg
    exact string_append_left_cancel hmsg
  cases hF : env.fetchOk with
  | false =>
    refine ⟨?_, ?_, ?_, ?_, hinj⟩ <;>
      simp [syncSubmodule, syncDirtyStep, hP, hD, hS, hF, applyOp]
  | true =>
    rcases hBS : syncBranchStep env (applyOp st (.stashPush (stashMessage ts)))
      with ⟨ok3, ops3, logs3⟩
    have hpres := syncBranchStep_preserves env
      (applyOp st (.stashPush (stashMessage ts)))
    rw [hBS] at hpres
    have hops : (syncSubmodule env ts name st true).ops
        = GitOp.stashPush (stashMessage ts) :: GitOp.fetch "origin" :: ops3 := by
      simp [syncSubmodule, syncDirtyStep, hP, hD, hS, hF, hBS]
    have hfin : (syncSubmodule env ts name st true).final
        = applyOps (applyOp st (.stashPush (stashMessage ts)))
            ([GitOp.fetch "origin"] ++ ops3) := by
      simp [syncSubmodule, syncDirtyStep, hP, hD, hS, hF, hBS]
    refine ⟨?_, ?_, ?_, ?_, hinj⟩
    · rw [hops]; rfl
    · rw [hfin, hpres.2]
      simp [applyOp]
    · rw [hfin, hpres.1]
      simp [applyOp]
    · intro _; rw [hops]; simp

/-- Witness for C5 at a concrete dirty repository with everything
succeeding. -/
theorem sync_force_stashes_witness :
    (syncSubmodule envAll "T0" "repoA" dirtySt true).ops.head?
      = some (.stashPush (stashMessage "T0")) ∧
    stashMessage "T0" ∈ (syncSubmodule envAll "T0" "repoA" dirtySt true).final.stashes ∧
    (syncSubmodule envAll "T0" "repoA" dirtySt true).final.dirty = false ∧
    (envAll.fetchOk = true →
      GitOp.fetch "origin" ∈ (syncSubmodule envAll "T0" "repoA" dirtySt true).ops) ∧
    (∀ t1 t2 : String, stashMessage t1 = stashMessage t2 → t1 = t2) :=
  sync_force_stashes envAll "T0" "repoA" dirtySt rfl rfl rfl

/-- C2 counterexample: a repository skipped for uncommitted changes and a
repository whose fetch failed produce the same boolean outcome and the
same `(failed)` summary rendering — the code's per-repository outcome is
a bare boolean, so Skipped is not distinguishable from Failed. -/
theorem sync_outcome_indistinguishable_cx :
    dirtySt.dirty = true ∧ cleanSt.dirty = false ∧ envNoFetch.fetchOk = false ∧
    (syncSubmodule envAll "T0" "repoA" dirtySt false).success
      = (syncSubmodule envNoFetch "T0" "repoB" cleanSt false).success ∧
    summaryLine ⟨"svc", (syncSubmodule envAll "T0" "repoA" dirtySt false).success⟩
      = summaryLine ⟨"svc", (syncSubmodule envNoFetch "T0" "repoB" cleanSt false).success⟩ := by
  decide

/-- C2 amended: the loop runs `syncSubmodule` for every registered
submodule — the entry of each repository depends only on that repository,
so an earlier failure never aborts the run — and produces exactly one
boolean entry and one summary line per repository; any unsuccessful
repository, skipped or failed alike, is rendered `✗ <name> (failed)`. -/
theorem sync_all_processes_each (forceUpdate : Bool) (specs : List SyncSpec) :
    syncSubmodulesLoop forceUpdate specs
      = specs.map (fun s =>
          ⟨s.name, (syncSubmodule s.env s.ts s.name s.state forceUpdate).success⟩) ∧
    (summary (syncSubmodulesLoop forceUpdate specs)).length = specs.length ∧
    (∀ e : SyncEntry, e.success = false →
      summaryLine e = "✗ " ++ e.name ++ " (failed)") := by
  have h1 : syncSubmodulesLoop forceUpdate specs
      = specs.map (fun s =>
          ⟨s.name, (syncSubmodule s.env s.ts s.name s.state forceUpdate).success⟩) := by
    induction specs with
    | nil => rfl
    | cons s rest ih => simp [syncSubmodulesLoop, ih]
  refine ⟨h1, ?_, ?_⟩
  · rw [h1]; simp [summary]
  · intro e he; simp [summaryLine, he]

/-- Witness for the amended C2 at the two-submodule list `specsCx`. -/
theorem sync_all_processes_each_witness :
    (summary (syncSubmodulesLoop false specsCx)).length = 2 ∧
    summaryLine ⟨"repoA", false⟩ = "✗ " ++ "repoA" ++ " (failed)" := by
  have h := sync_all_processes_each false specsCx
  exact ⟨h.2.1.trans rfl, h.2.2 ⟨"repoA", false⟩ rfl⟩

/-- C3 counterexample: on `parentCx` — submodule `services/serviceA`
unchanged, `services/serviceB` advanced from `bbb111` to `bbb222`, plus an
unrelated dirty `README.md` — the parent phase stages `README.md` as well
(it stages everything, not only changed pointer entries), and the commit
message lists the unchanged `services/serviceA` while never containing the
old revision `bbb111`, so it does not enumerate
`(repository, oldRevision → newRevision)` pairs for exactly the movers. -/
theorem parent_aggregation_cx :
    (parentCx.submodules.map SubEntry.changed) = [false, true] ∧
    "README.md" ∈ (updateParentRepo false parentCx).1.stagedPaths ∧
    (updateParentRepo true parentCx).1.commits.head? = some parentCxMsg ∧
    mentions parentCxMsg "services/serviceA" = true ∧
    mentions parentCxMsg "bbb111" = false := by
  decide

/-- C3 amended: the parent phase stages every pending change in the parent
working tree (`git add .`), and on confirmation commits with a message
that is the fixed header followed by the full `git submodule status`
output — one line per registered submodule at its current revision,
changed or not, with no old revisions. -/
theorem parent_aggregation_behavior (confirm : Bool) (p : ParentState) :
    (updateParentRepo confirm p).1.unstagedPaths = [] ∧
    (confirm = false →
      (updateParentRepo confirm p).1.stagedPaths
        = p.stagedPaths ++ p.unstagedPaths) ∧
    (confirm = true → p.stagedPaths ++ p.unstagedPaths ≠ [] →
      (updateParentRepo confirm p).1.commits
        = ("chore: update submodule references to latest commits\n\n" ++
           String.intercalate "\n" (getSubmoduleStatus p)) :: p.commits) := by
  have hemp : p.stagedPaths ++ p.unstagedPaths ≠ [] →
      (p.stagedPaths ++ p.unstagedPaths).isEmpty = false := by
    intro hne
    cases hl : p.stagedPaths ++ p.unstagedPaths with
    | nil => exact absurd hl hne
    | cons a as => rfl
  refine ⟨?_, ?_, ?_⟩
  · simp only [updateParentRepo]
    split_ifs <;> rfl
  · intro hc; subst hc
    simp only [updateParentRepo]
    split_ifs <;> first | rfl | contradiction
  · intro hc hne; subst hc
    simp only [updateParentRepo]
    simp [hemp hne, getSubmoduleStatus]

/-- Witness for the amended C3 at `parentCx`. -/
theorem parent_aggregation_behavior_witness :
    (updateParentRepo true parentCx).1.unstagedPaths = [] ∧
    (updateParentRepo true parentCx).1.commits
      = ["chore: update submodule references to latest commits\n\n" ++
         String.intercalate "\n" (getSubmoduleStatus parentCx)] := by
  have h := parent_aggregation_behavior true parentCx
  exact ⟨h.1, by rw [h.2.2 rfl (by decide)]; rfl⟩

/-- C6: the branch-existence decision table of `createFeatureBranch` when
the preliminary steps succeed.  A locally existing feature branch is never
switched to silently: declining the confirmation performs no further
operation and leaves the (default) branch checked out; confirming checks
the branch out.  A branch existing only on the remote is checked out
tracking `origin/<branch>`.  A branch existing nowhere is created fresh
from the just-updated default branch.  No path creates a branch except
the last. -/
theorem feature_branch_decision_table (env : Env) (confirm : Bool)
    (serviceName featureName : String) (st : RepoState)
    (hP : st.pathExists = true) (hR : st.isRepo = true) (hD : st.dirty = false)
    (hF : env.fetchOk = true)
    (hCo : env.checkoutOk (getDefaultBranch st) = true)
    (hPu : env.pullOk (getDefaultBranch st) = true) :
    (branchExists st ("feature/" ++ featureName) = true → confirm = false →
      (createFeatureBranch env confirm serviceName featureName st).success = false ∧
      (createFeatureBranch env confirm serviceName featureName st).final.currentBranch
        = some (getDefaultBranch st) ∧
      (createFeatureBranch env confirm serviceName featureName st).ops
        = [GitOp.fetch "origin"] ++
          (if st.currentBranch = some (getDefaultBranch st) then []
           else [GitOp.checkout (getDefaultBranch st)]) ++
          [GitOp.pull "origin" (getDefaultBranch st)]) ∧
    (branchExists st ("feature/" ++ featureName) = true → confirm = true →
      env.checkoutOk ("feature/" ++ featureName) = true →
      (createFeatureBranch env confirm serviceName featureName st).success = true ∧
      (createFeatureBranch env confirm serviceName featureName st).final.currentBranch
        = some ("feature/" ++ featureName) ∧
      (∀ b, GitOp.createBranch b
        ∉ (createFeatureBranch env confirm serviceName featureName st).ops)) ∧
    (branchExists st ("feature/" ++ featureName) = false →
      remoteBranchExists st ("feature/" ++ featureName) = true →
      env.checkoutTrackOk = true →
      (createFeatureBranch env confirm serviceName featureName st).success = true ∧
      (createFeatureBranch env confirm serviceName featureName st).final.currentBranch
        = some ("feature/" ++ featureName) ∧
      GitOp.checkoutTrack ("feature/" ++ featureName)
          ("origin/" ++ ("feature/" ++ featureName))
        ∈ (createFeatureBranch env confirm serviceName featureName st).ops ∧
      (∀ b, GitOp.createBranch b
        ∉ (createFeatureBranch env confirm serviceName featureName st).ops)) ∧
    (branchExists st ("feature/" ++ featureName) = false →
      remoteBranchExists st ("feature/" ++ featureName) = false →
      env.createBranchOk = true →
      (createFeatureBranch env confirm serviceName featureName st).success = true ∧
      (createFeatureBranch env confirm serviceName featureName st).final.currentBranch
        = some ("feature/" ++ featureName) ∧
      (createFeatureBranch env confirm serviceName featureName st).ops
        = [GitOp.fetch "origin"] ++
          (if st.currentBranch = some (getDefaultBranch st) then []
           else [GitOp.checkout (getDefaultBranch st)]) ++
          [GitOp.pull "origin" (getDefaultBranch st),
           GitOp.createBranch ("feature/" ++ featureName)]) := by
  refine ⟨?_, ?_, ?_, ?_⟩
  · intro hBE hconf
    subst hconf
    simp [branchExists] at hBE
    by_cases hsw : st.currentBranch = some (getDefaultBranch st) <;>
      simp [createFeatureBranch, featurePullStep, featureBranchStep,
        branchExists, hP, hR, hD, hF, hCo, hPu, hsw, hBE, applyOps, applyOp]
  · intro hBE hconf hok
    subst hconf
    simp [branchExists] at hBE
    by_cases hsw : st.currentBranch = some (getDefaultBranch st) <;>
      simp [createFeatureBranch, featurePullStep, featureBranchStep,
        branchExists, hP, hR, hD, hF, hCo, hPu, hsw, hBE, hok, applyOps, applyOp]
  · intro hBE hRE htr
    simp [branchExists] at hBE
    simp [remoteBranchExists, getRemoteBranches] at hRE
    by_cases hsw : st.currentBranch = some (getDefaultBranch st) <;>
      simp [createFeatureBranch, featurePullStep, featureBranchStep,
        branchExists, remoteBranchExists, getRemoteBranches,
        hP, hR, hD, hF, hCo, hPu, hsw, hBE, hRE, htr, applyOps, applyOp]
  · intro hBE hRE hcr
    simp [branchExists] at hBE
    simp [remoteBranchExists, getRemoteBranches] at hRE
    have hRE' : ¬∃ a ∈ st.remoteBranchesRaw,
        jsReplaceOnce a "origin/" = "feature/" ++ featureName := by
      simpa using hRE
    by_cases hsw : st.currentBranch = some (getDefaultBranch st) <;>
      simp [createFeatureBranch, featurePullStep, featureBranchStep,
        branchExists, remoteBranchExists, getRemoteBranches,
        hP, hR, hD, hF, hCo, hPu, hsw, hBE, hRE', hcr, applyOps, applyOp]

/-- Witness for C6 at a repository where `feature/login` exists only on the
remote: the run resumes the remote branch via a tracking checkout. -/
theorem feature_branch_decision_table_witness :
    branchExists remoteFeatureSt ("feature/" ++ "login") = false ∧
    remoteBranchExists remoteFeatureSt ("feature/" ++ "login") = true ∧
    (createFeatureBranch envAll false "svc" "login" remoteFeatureSt).success = true ∧
    (createFeatureBranch envAll false "svc" "login" remoteFeatureSt).final.currentBranch
      = some ("feature/" ++ "login") ∧
    GitOp.checkoutTrack ("feature/" ++ "login") ("origin/" ++ ("feature/" ++ "login"))
      ∈ (createFeatureBranch envAll false "svc" "login" remoteFeatureSt).ops := by
  have h := feature_branch_decision_table envAll false "svc" "login" remoteFeatureSt
    rfl rfl rfl rfl (by decide) (by decide)
  have h3 := h.2.2.1 (by decide) (by decide) rfl
  exact ⟨by decide, by decide, h3.1, h3.2.1, h3.2.2.1⟩

end GitSubmodules
